import Mathlib

/-!
Verification of the property classification and decorator-synthesis
subsystem of the ember-native-class-codemod repository, as a shallow
embedding in Lean 4.

The embedding translates the TypeScript sources:
* `makeEOProp` (the Property Variant Classifier, eo-prop/index.ts),
* `EOSimpleProp` (simple.ts: `build`, `typeErrors`, `buildDecorators`),
* `AbstractEOProp` (abstract.ts: the runtime-metadata constructor and the
  derived accessors),
* `getDecoratorsToImportSpecs` and `parseEmberObjectCallExpression`
  (ember-object.ts helpers),
* `RuntimeData` (runtime-data.ts),
* the transformer entry point (the extension guard).

Collaborator code whose source is not included (the AST shape predicates,
the call-expression disambiguator, `createDecoratorWithArgs`, the actions
object expansion, `makeError`, the options record, and the
parse/print pipeline behind the transformer) is modelled from the spec;
each such definition says so in its doc comment.
-/

/-! ## AST value shapes and the raw property node -/

/--
The `type` tag of a property's value node, as inspected by the shape
predicates (`'CallExpression'`, `'FunctionExpression'`, `'ObjectExpression'`,
`'ArrayExpression'`); every other AST node kind is carried as `other tag`.
-/
inductive ValueType
  | callExpression
  | functionExpression
  | objectExpression
  | arrayExpression
  | other (tag : String)
deriving DecidableEq

/--
A legacy property declaration as handed to the classifier: key name,
whether the node is a method-style member (`ObjectMethod`), the value's
type tag, the object-expression entries (entry name and whether the entry
is function-valued, used by the actions-object shape), and the
call-expression facts the disambiguator inspects (whether the callee is a
recognized computed-property helper and whether its final argument is a
function).
-/
structure EORawProp where
  name : String
  isMethod : Bool := false
  valueType : ValueType
  entries : List (String × Bool) := []
  knownComputedCall : Bool := false
  finalArgIsFunction : Bool := false
deriving DecidableEq

/-- Modelled from the spec: shape predicate for a property whose value is a
call expression (the AST helper module's source is not included). -/
def isEOPropertyWithCallExpression (p : EORawProp) : Bool :=
  !p.isMethod && p.valueType == .callExpression

/-- Modelled from the spec: shape predicate for a method-style member
(the AST helper module's source is not included). -/
def isEOMethod (p : EORawProp) : Bool :=
  p.isMethod

/-- Modelled from the spec: shape predicate for a property whose value is a
plain function expression (the AST helper module's source is not included). -/
def isEOPropertyWithFunctionExpression (p : EORawProp) : Bool :=
  !p.isMethod && p.valueType == .functionExpression

/-- Modelled from the spec: the fixed set of class-level behavior names
(tag name, class name list, class-name-binding list, attribute-binding
list, layout reference) of §4.1 item 4. -/
def classDecoratorPropNames : List String :=
  ["tagName", "classNames", "classNameBindings", "attributeBindings", "layout"]

/-- Modelled from the spec: shape predicate for a class-level behavior
declaration (the AST helper module's source is not included). -/
def isEOPropertyForClassDecorator (p : EORawProp) : Bool :=
  !p.isMethod && classDecoratorPropNames.contains p.name

/-- Modelled from the spec: shape predicate for the `actions` object map
(the AST helper module's source is not included). -/
def isEOPropertyForActionsObject (p : EORawProp) : Bool :=
  !p.isMethod && p.name == "actions" && p.valueType == .objectExpression

/-- Modelled from the spec: shape predicate for a plain-value property,
i.e. a non-method member whose value is neither a call expression nor a
function expression (the AST helper module's source is not included). -/
def isEOPropertySimple (p : EORawProp) : Bool :=
  !p.isMethod && !(p.valueType == .callExpression)
    && !(p.valueType == .functionExpression)

/-- The closed set of Property Variants produced by classification. -/
inductive EOPropVariant
  | computedFunctionExpression
  | computedObjectExpression
  | decoratedCallExpression
  | methodVariant
  | functionExpressionVariant
  | classDecoratorVariant
  | actionsObjectVariant
  | simpleVariant
deriving DecidableEq

/-- Modelled from the spec: the Call-Expression Disambiguator
(`makeEOCallExpressionProp`, whose source is not included): a call to a
recognized computed-property helper yields the computed variant whose
sub-kind is chosen by whether the final argument is a function or an
object map; any other call falls back to the decorated-call variant. -/
def makeEOCallExpressionProp (p : EORawProp) : EOPropVariant :=
  if p.knownComputedCall then
    if p.finalArgIsFunction then .computedFunctionExpression
    else .computedObjectExpression
  else .decoratedCallExpression

/--
The Property Variant Classifier `makeEOProp` (eo-prop/index.ts): the
if/else chain over the shape predicates, with the final `else` branch
asserting `isEOPropertySimple`; a failed assertion is an `Except.error`.
-/
def makeEOProp (p : EORawProp) : Except String EOPropVariant :=
  if isEOPropertyWithCallExpression p then .ok (makeEOCallExpressionProp p)
  else if isEOMethod p then .ok .methodVariant
  else if isEOPropertyWithFunctionExpression p then .ok .functionExpressionVariant
  else if isEOPropertyForClassDecorator p then .ok .classDecoratorVariant
  else if isEOPropertyForActionsObject p then .ok .actionsObjectVariant
  else if isEOPropertySimple p then .ok .simpleVariant
  else .error "assertion failed: isEOPropertySimple(eoProp)"

/-! ## Decorator import aggregation -/

/-- The fixed-shape record of booleans `DecoratorImportSpecs`
(ember-object.ts). -/
structure DecoratorImportSpecs where
  action : Bool
  classNames : Bool
  classNameBindings : Bool
  attributeBindings : Bool
  layout : Bool
  templateLayout : Bool
  off : Bool
  tagName : Bool
  unobserves : Bool
deriving DecidableEq

/--
The observations `getDecoratorsToImportSpecs` makes of one property model:
the `instanceof EOActionsObjectProp` / `instanceof EOClassDecoratorProp`
runtime type tests, the class-decorator sub-kind accessors, and the
`hasOffDecorator` / `hasUnobservesDecorator` accessors.
-/
structure EOPropView where
  isActionsObject : Bool := false
  isClassDecorator : Bool := false
  isClassNames : Bool := false
  isClassNameBindings : Bool := false
  isAttributeBindings : Bool := false
  isLayoutDecorator : Bool := false
  isTemplateLayoutDecorator : Bool := false
  isTagName : Bool := false
  hasOffDecorator : Bool := false
  hasUnobservesDecorator : Bool := false
deriving DecidableEq

/-- One iteration of the loop body of `getDecoratorsToImportSpecs`
(ember-object.ts lines 81–106): the re-assignment of `specs` from the
previous `specs` and the current property model. -/
def importSpecsStep (specs : DecoratorImportSpecs) (prop : EOPropView) :
    DecoratorImportSpecs where
  action := specs.action || prop.isActionsObject
  classNames := specs.classNames || (prop.isClassDecorator && prop.isClassNames)
  classNameBindings :=
    specs.classNameBindings || (prop.isClassDecorator && prop.isClassNameBindings)
  attributeBindings :=
    specs.attributeBindings || (prop.isClassDecorator && prop.isAttributeBindings)
  layout := specs.layout || (prop.isClassDecorator && prop.isLayoutDecorator)
  templateLayout :=
    specs.templateLayout || (prop.isClassDecorator && prop.isTemplateLayoutDecorator)
  off := specs.off || prop.hasOffDecorator
  tagName := specs.tagName || (prop.isClassDecorator && prop.isTagName)
  unobserves := specs.unobserves || prop.hasUnobservesDecorator

/-- `getDecoratorsToImportSpecs` (ember-object.ts): a loop over the
instance properties threading the mutable `specs` accumulator, i.e. a
left fold of `importSpecsStep` starting from `existingSpecs`. -/
def getDecoratorsToImportSpecs (instanceProps : List EOPropView)
    (existingSpecs : DecoratorImportSpecs) : DecoratorImportSpecs :=
  instanceProps.foldl importSpecsStep existingSpecs

/-- Pointwise logical OR of two import-spec records. -/
def orSpecs (a b : DecoratorImportSpecs) : DecoratorImportSpecs where
  action := a.action || b.action
  classNames := a.classNames || b.classNames
  classNameBindings := a.classNameBindings || b.classNameBindings
  attributeBindings := a.attributeBindings || b.attributeBindings
  layout := a.layout || b.layout
  templateLayout := a.templateLayout || b.templateLayout
  off := a.off || b.off
  tagName := a.tagName || b.tagName
  unobserves := a.unobserves || b.unobserves

/-- The all-false import-spec record. -/
def allFalseSpecs : DecoratorImportSpecs where
  action := false
  classNames := false
  classNameBindings := false
  attributeBindings := false
  layout := false
  templateLayout := false
  off := false
  tagName := false
  unobserves := false

/-! ## Runtime metadata and the abstract property base -/

/-- A literal decorator argument (`string | boolean | number | null`,
runtime-data.ts). -/
inductive Lit
  | str (s : String)
  | boolean (b : Bool)
  | num (n : Int)
  | nullLit
deriving DecidableEq

/-- The `RuntimeData` record (runtime-data.ts); every field is optional,
with the defaults the destructuring in the `AbstractEOProp` constructor
supplies. Record-typed fields are association lists. -/
structure RuntimeData where
  type : Option String := none
  computedProperties : List String := []
  offProperties : List (String × List Lit) := []
  overriddenActions : List String := []
  overriddenProperties : List String := []
  unobservedProperties : List (String × List Lit) := []
deriving DecidableEq

/-- JavaScript truthiness of an optional string (`undefined` and the empty
string are falsy). -/
def strTruthy : Option String → Bool
  | none => false
  | some s => !(s == "")

/-- A `DecoratorImportInfo` value as pushed onto `this.decorators`; the
`args` field is optional and `none` models the key being absent from the
object (the constructor in abstract.ts pushes `{ name: 'unobserves' }` and
`{ name: 'off' }`, with no `args` key). -/
structure DecoratorImportInfo where
  name : String
  args : Option (List Lit) := none
  isMetaDecorator : Bool := false
deriving DecidableEq

/-- The `EODecoratorArgs` record of abstract.ts (`decoratorArgs`). -/
structure EODecoratorArgs where
  unobserves : Option (List Lit) := none
  off : Option (List Lit) := none
deriving DecidableEq

/-- The state the `AbstractEOProp` constructor initializes from the
runtime metadata: the synthesized decorator-info list, the separately
stored decorator arguments, and the runtime flags. All fields start
empty/undefined. -/
structure EOPropRuntimeState where
  decorators : List DecoratorImportInfo := []
  decoratorArgs : EODecoratorArgs := {}
  isComputed : Option Bool := none
  isOverridden : Option Bool := none
  runtimeType : Option String := none
deriving DecidableEq

/--
The body of the `AbstractEOProp` constructor (abstract.ts lines 278–305):
when `runtimeData?.type` is truthy, a name found in `unobservedProperties`
pushes `{ name: 'unobserves' }` (storing the entry's argument list only in
`decoratorArgs.unobserves`), a name found in `offProperties` pushes
`{ name: 'off' }` likewise, membership in `computedProperties` sets
`isComputed` to `true` (otherwise it stays undefined), `isOverridden` is
assigned from `overriddenProperties`, and `runtimeType` records the type
tag. Otherwise every field keeps its initial empty/undefined value.
-/
def initRuntimeState (name : String) (runtimeData : Option RuntimeData) :
    EOPropRuntimeState :=
  match runtimeData with
  | none => {}
  | some rd =>
    if strTruthy rd.type then
      let uLook := rd.unobservedProperties.lookup name
      let oLook := rd.offProperties.lookup name
      { decorators :=
          (match uLook with
           | some _ => [{ name := "unobserves" }]
           | none => []) ++
          (match oLook with
           | some _ => [{ name := "off" }]
           | none => [])
        decoratorArgs := { unobserves := uLook, off := oLook }
        isComputed :=
          if rd.computedProperties.contains name then some true else none
        isOverridden := some (rd.overriddenProperties.contains name)
        runtimeType := rd.type }
    else {}

/-- `decoratorNames` accessor (abstract.ts). -/
def EOPropRuntimeState.decoratorNames (st : EOPropRuntimeState) : List String :=
  st.decorators.map (·.name)

/-- `hasRuntimeData` accessor (abstract.ts): `!!this.runtimeType`. -/
def EOPropRuntimeState.hasRuntimeData (st : EOPropRuntimeState) : Bool :=
  strTruthy st.runtimeType

/-- `hasDecorators` accessor (abstract.ts): `this.decorators.length > 0`. -/
def EOPropRuntimeState.hasDecorators (st : EOPropRuntimeState) : Bool :=
  decide (st.decorators.length > 0)

/-- `hasUnobservesDecorator` accessor (abstract.ts lines 341–343):
`this.decoratorNames.includes('unobserves')`. -/
def EOPropRuntimeState.hasUnobservesDecorator (st : EOPropRuntimeState) : Bool :=
  st.decoratorNames.contains "unobserves"

/-- `hasOffDecorator` accessor (abstract.ts):
`this.decoratorNames.includes('off')`. -/
def EOPropRuntimeState.hasOffDecorator (st : EOPropRuntimeState) : Bool :=
  st.decoratorNames.contains "off"

/-! ## The Simple property model -/

/-- A value node of a property declaration: the `type` tag the model
inspects plus an opaque payload standing in for the node's content, so
that value preservation is observable. -/
structure EOValueNode where
  type : ValueType
  payload : String := ""
deriving DecidableEq

/-- The options record, as far as this subsystem reads it. Modelled from
the spec (§6: a boolean enabling native class-field emission); the options
module source is not included. -/
structure Options where
  classFields : Bool := true
deriving DecidableEq

/-- A concrete decorator node attached to a built class member. -/
structure Decorator where
  name : String
  args : List Lit := []
deriving DecidableEq

/-- Modelled from the spec: `createDecoratorWithArgs`
(decorator-helper.ts source is not included) constructs a decorator node
carrying the given name and positional argument list. -/
def createDecoratorWithArgs (name : String) (args : List Lit) : Decorator :=
  { name := name, args := args }

/-- An `EOSimpleProp` model: the raw declaration's fields (`name`,
`value`, `computed`, `comments`), the options, the pre-existing decorators
read off the source declaration (modelled from the spec §4.3; `none` when
the declaration carries none), and the runtime state initialized by the
`AbstractEOProp` constructor. -/
structure EOSimpleProp where
  name : String
  value : EOValueNode
  computed : Bool := false
  comments : List String := []
  options : Options := {}
  existingDecorators : Option (List Decorator) := none
  runtimeState : EOPropRuntimeState := {}
deriving DecidableEq

/-- Construct an `EOSimpleProp` the way `new EOSimpleProp(eoProp, ...)`
does: the runtime state comes from the `AbstractEOProp` constructor run on
the declaration's name and the runtime metadata. -/
def mkEOSimpleProp (name : String) (value : EOValueNode) (computed : Bool)
    (comments : List String) (options : Options)
    (existingDecorators : Option (List Decorator))
    (runtimeData : Option RuntimeData) : EOSimpleProp :=
  { name := name, value := value, computed := computed, comments := comments
    options := options, existingDecorators := existingDecorators
    runtimeState := initRuntimeState name runtimeData }

/-- The loop of `EOSimpleProp.buildDecorators` (simple.ts lines 55–64):
a decorator info carrying an `args` key becomes a built decorator via
`createDecoratorWithArgs`; one without an `args` key is skipped with an
`Ignored decorator` log entry. -/
def buildDecoratorsLoop : List DecoratorImportInfo → List Decorator
  | [] => []
  | d :: rest =>
    match d.args with
    | some args => createDecoratorWithArgs d.name args :: buildDecoratorsLoop rest
    | none => buildDecoratorsLoop rest

/-- `EOSimpleProp.buildDecorators` (simple.ts lines 55–67): the loop's
result appended after the declaration's existing decorators
(`[...(this.existingDecorators ?? []), ...decorators]`). -/
def EOSimpleProp.buildDecorators (p : EOSimpleProp) : List Decorator :=
  (p.existingDecorators.getD []) ++ buildDecoratorsLoop p.runtimeState.decorators

/-- The names logged as `Ignored decorator ...` while building (simple.ts
line 62): the synthesized decorator infos that carry no `args` key. -/
def EOSimpleProp.ignoredDecoratorNames (p : EOSimpleProp) : List String :=
  p.runtimeState.decorators.filterMap fun d =>
    match d.args with
    | some _ => none
    | none => some d.name

/-- The built class member: key, optional value, comments, computed-ness
and the attached decorator list. -/
structure ClassProperty where
  key : String
  value : Option EOValueNode
  comments : List String
  computed : Bool
  decorators : List Decorator
deriving DecidableEq

/-- `EOSimpleProp.build` (simple.ts lines 17–31): the class property keeps
the key, comments and computed-ness; its value is nulled exactly when the
model has decorators; the decorator list comes from `buildDecorators`. -/
def EOSimpleProp.build (p : EOSimpleProp) : ClassProperty :=
  { key := p.name
    value := if p.runtimeState.hasDecorators then none else some p.value
    comments := p.comments
    computed := p.computed
    decorators := p.buildDecorators }

/-- Modelled from the spec: `makeError` (the abstract base's message
helper, source not included) prefixes a validation message with the
property's name (§4.2: human-readable validation failures). -/
def makeError (name : String) (message : String) : String :=
  "[" ++ name ++ "]: " ++ message

/-- `EOSimpleProp.typeErrors` (simple.ts lines 33–53): a missing
class-fields option pushes one error; an object- or array-typed value on
a property not named `queryParams` pushes another. -/
def EOSimpleProp.typeErrors (p : EOSimpleProp) : List String :=
  (if p.options.classFields then []
   else [makeError p.name "need option '--class-fields=true'"]) ++
  (if (p.value.type == .objectExpression || p.value.type == .arrayExpression)
      && !(p.name == "queryParams") then
    [makeError p.name
      "value is of type object. For more details: eslint-plugin-ember/avoid-leaking-state-in-ember-objects"]
   else [])

/-! ## Actions object expansion -/

/-- A method member produced by expanding one actions-object entry,
carrying the names of the decorators attached to it. -/
structure ActionMethod where
  name : String
  decorators : List String
deriving DecidableEq

/-- Modelled from the spec: the Actions Object expansion (§4.4; the
EOActionsProp source is not included): each function-valued entry of the
actions map yields one method member carrying an implicit `action`
decorator; a non-function entry is a validation error on that entry and
yields no method. -/
def actionsObjectMethods (entries : List (String × Bool)) : List ActionMethod :=
  entries.filterMap fun e =>
    if e.2 then some { name := e.1, decorators := ["action"] } else none

/-- The aggregator's view of an actions-object model: it is an
`EOActionsObjectProp` instance; none of the class-decorator sub-kind
accessors hold, and without runtime metadata it carries no `off` or
`unobserves` decorator. -/
def actionsObjectView : EOPropView :=
  { isActionsObject := true }

/-! ## Parsing the Ember object call expression -/

/-- One argument of the `EmberObject.extend(...)` call: either an object
expression or any other (mixin) expression, each carrying an opaque label
standing in for the node. -/
inductive EOCallArg
  | objectExpression (label : String)
  | mixinArg (label : String)
deriving DecidableEq

/-- The label of an object-expression argument. -/
def objLabel : EOCallArg → Option String
  | .objectExpression l => some l
  | .mixinArg _ => none

/-- The label of a non-object (mixin) argument. -/
def mixinLabel : EOCallArg → Option String
  | .objectExpression _ => none
  | .mixinArg l => some l

/-- The `EOCallExpressionProps` accumulator of
`parseEmberObjectCallExpression` (ember-object.ts): the current
`eoExpression` and the mixins collected so far. -/
structure EOCallExpressionProps where
  eoExpression : Option String := none
  mixins : List String := []
deriving DecidableEq

/-- The loop of `parseEmberObjectCallExpression` (ember-object.ts lines
242–248): an object-expression argument overwrites `eoExpression`; any
other argument is appended to `mixins`. -/
def parseEOCallLoop : List EOCallArg → EOCallExpressionProps → EOCallExpressionProps
  | [], acc => acc
  | arg :: rest, acc =>
    match arg with
    | .objectExpression l => parseEOCallLoop rest { acc with eoExpression := some l }
    | .mixinArg l => parseEOCallLoop rest { acc with mixins := acc.mixins ++ [l] }

/-- `parseEmberObjectCallExpression` (ember-object.ts lines 234–250):
the loop run from the empty accumulator. -/
def parseEmberObjectCallExpression (args : List EOCallArg) : EOCallExpressionProps :=
  parseEOCallLoop args {}

/-- The last object-expression argument of the list, following the
claim's words (the kept `eoExpression` is the last object-expression
argument, earlier ones being discarded); `none` when there is no
object-expression argument. -/
def lastObjLabel : List EOCallArg → Option String
  | [] => none
  | arg :: rest =>
    match lastObjLabel rest with
    | some l => some l
    | none => objLabel arg

/-! ## The transformer entry point -/

/-- The suffix after the last occurrence of `sep`; `none` when `sep` does
not occur in the list. -/
def afterLast (sep : Char) : List Char → Option (List Char)
  | [] => none
  | c :: rest =>
    match afterLast sep rest with
    | some suf => some suf
    | none => if c == sep then some rest else none

/-- `path.extname`, as used by the transformer (part of Node's path
module): the suffix of the path's basename starting at its last dot; the
empty string when the basename has no dot or only a leading dot. -/
def extname (filePath : String) : String :=
  let base :=
    match afterLast '/' filePath.data with
    | some suf => suf
    | none => filePath.data
  match base with
  | [] => ""
  | _ :: t =>
    match afterLast '.' t with
    | some suf => ⟨'.' :: suf⟩
    | none => ""

/-- Lower-casing of one character in the ASCII range, as `toLowerCase()`
behaves on extension strings. -/
def asciiLowerChar (c : Char) : Char :=
  if c.toNat ≥ 65 ∧ c.toNat ≤ 90 then Char.ofNat (c.toNat + 32) else c

/-- The JavaScript `toLowerCase()` string method, as used on the
extension (ASCII range). -/
def toLowerCase (s : String) : String :=
  ⟨s.data.map asciiLowerChar⟩

/--
The transformer entry point (index.ts lines 6–27). The parse-and-transform
pipeline behind it (config loader, parser, `maybeTransformEmberObjects`,
printer) is an out-of-scope collaborator modelled as a parameter:
`pipeline source = some printed` means the tree was replaced and
re-printed, `none` means no replacement so the original source is
returned. A file whose lower-cased extension is not `.js` or `.ts` makes
the function return `none` (JavaScript `undefined`) before the pipeline
runs.
-/
def transformer (pipeline : String → Option String) (source : String)
    (filePath : String) : Option String :=
  if !([".js", ".ts"].contains (toLowerCase (extname filePath))) then none
  else
    match pipeline source with
    | some printed => some printed
    | none => some source

/-! ## Concrete demonstration inputs -/

/-- Runtime metadata with a truthy type tag and `foo` unobserved with an
empty argument list. -/
def fooRuntimeData : RuntimeData :=
  { type := some "EmberObject", unobservedProperties := [("foo", [])] }

/-- The Simple property model for a declaration named `foo` built with
`fooRuntimeData`. -/
def fooProp : EOSimpleProp :=
  mkEOSimpleProp "foo" { type := .other "Literal", payload := "1" } false []
    {} none (some fooRuntimeData)

/-- A Simple property model with no runtime metadata. -/
def plainProp : EOSimpleProp :=
  mkEOSimpleProp "isVisible" { type := .other "Literal", payload := "true" }
    false [] {} none none

/-- A declaration named `config` whose value is an object literal, built
with the class-field flag disabled and no runtime metadata. -/
def configProp : EOSimpleProp :=
  mkEOSimpleProp "config" { type := .objectExpression, payload := "{}" } false
    [] { classFields := false } none none

/-- Runtime metadata whose `type` is absent while the other fields are
non-empty. -/
def typelessRuntimeData : RuntimeData :=
  { type := none
    computedProperties := ["foo"]
    unobservedProperties := [("foo", [])] }

/-- The raw `actions` declaration whose object value has the two
function-valued entries `save` and `cancel`. -/
def saveCancelRawProp : EORawProp :=
  { name := "actions", valueType := .objectExpression
    entries := [("save", true), ("cancel", true)] }

/-- The raw `actions` declaration whose object value is empty. -/
def emptyActionsRawProp : EORawProp :=
  { name := "actions", valueType := .objectExpression, entries := [] }

/-- A second aggregator view, used to exercise permutations: a
class-decorator model with the tag-name sub-kind. -/
def tagNameView : EOPropView :=
  { isClassDecorator := true, isTagName := true }

/-! ## Helper lemmas about the import-spec fold -/

theorem orSpecs_assoc (a b c : DecoratorImportSpecs) :
    orSpecs (orSpecs a b) c = orSpecs a (orSpecs b c) := by
  simp [orSpecs, Bool.or_assoc]

theorem orSpecs_self (a : DecoratorImportSpecs) : orSpecs a a = a := by
  cases a
  simp [orSpecs]

theorem orSpecs_allFalse (a : DecoratorImportSpecs) :
    orSpecs a allFalseSpecs = a := by
  cases a
  simp [orSpecs, allFalseSpecs]

theorem importSpecsStep_or (e₁ e₂ : DecoratorImportSpecs) (v : EOPropView) :
    importSpecsStep (orSpecs e₁ e₂) v = orSpecs e₁ (importSpecsStep e₂ v) := by
  simp [importSpecsStep, orSpecs, Bool.or_assoc]

theorem importSpecsStep_comm (e : DecoratorImportSpecs) (a b : EOPropView) :
    importSpecsStep (importSpecsStep e a) b
      = importSpecsStep (importSpecsStep e b) a := by
  simp only [importSpecsStep]
  simp [Bool.or_assoc, Bool.or_comm, Bool.or_left_comm]

theorem getDecoratorsToImportSpecs_or (l : List EOPropView) :
    ∀ e₁ e₂ : DecoratorImportSpecs,
      getDecoratorsToImportSpecs l (orSpecs e₁ e₂)
        = orSpecs e₁ (getDecoratorsToImportSpecs l e₂) := by
  induction l with
  | nil => intro e₁ e₂; rfl
  | cons v rest ih =>
    intro e₁ e₂
    show getDecoratorsToImportSpecs rest (importSpecsStep (orSpecs e₁ e₂) v)
      = orSpecs e₁ (getDecoratorsToImportSpecs rest (importSpecsStep e₂ v))
    rw [importSpecsStep_or, ih]

theorem getDecoratorsToImportSpecs_decompose (l : List EOPropView)
    (e : DecoratorImportSpecs) :
    getDecoratorsToImportSpecs l e
      = orSpecs e (getDecoratorsToImportSpecs l allFalseSpecs) := by
  have h := getDecoratorsToImportSpecs_or l e allFalseSpecs
  rw [orSpecs_allFalse] at h
  exact h

theorem getDecoratorsToImportSpecs_perm {l₁ l₂ : List EOPropView}
    (h : l₁.Perm l₂) :
    ∀ e, getDecoratorsToImportSpecs l₁ e = getDecoratorsToImportSpecs l₂ e := by
  induction h with
  | nil => intro e; rfl
  | cons x _ ih =>
    intro e
    show getDecoratorsToImportSpecs _ (importSpecsStep e x)
      = getDecoratorsToImportSpecs _ (importSpecsStep e x)
    exact ih _
  | swap x y l =>
    intro e
    show getDecoratorsToImportSpecs l (importSpecsStep (importSpecsStep e y) x)
      = getDecoratorsToImportSpecs l (importSpecsStep (importSpecsStep e x) y)
    rw [importSpecsStep_comm]
  | trans _ _ ih₁ ih₂ =>
    intro e
    exact (ih₁ e).trans (ih₂ e)

theorem getDecoratorsToImportSpecs_action (l : List EOPropView) :
    ∀ e : DecoratorImportSpecs,
      (getDecoratorsToImportSpecs l e).action
        = (e.action || l.any (·.isActionsObject)) := by
  induction l with
  | nil => intro e; simp [getDecoratorsToImportSpecs]
  | cons v rest ih =>
    intro e
    show (getDecoratorsToImportSpecs rest (importSpecsStep e v)).action = _
    rw [ih]
    simp [importSpecsStep, Bool.or_assoc]

/-! ## Helper lemmas about the call-expression parse loop -/

theorem parseEOCallLoop_spec (args : List EOCallArg) :
    ∀ acc : EOCallExpressionProps,
      (parseEOCallLoop args acc).mixins
          = acc.mixins ++ args.filterMap mixinLabel ∧
      (parseEOCallLoop args acc).eoExpression
          = (match lastObjLabel args with
             | some l => some l
             | none => acc.eoExpression) := by
  induction args with
  | nil => intro acc; exact ⟨by simp [parseEOCallLoop], rfl⟩
  | cons arg rest ih =>
    intro acc
    cases arg with
    | objectExpression l =>
      obtain ⟨hm, he⟩ := ih { acc with eoExpression := some l }
      refine ⟨?_, ?_⟩
      · simpa [parseEOCallLoop, mixinLabel] using hm
      · show (parseEOCallLoop rest _).eoExpression = _
        rw [he]
        simp only [lastObjLabel, objLabel]
        cases lastObjLabel rest <;> rfl
    | mixinArg l =>
      obtain ⟨hm, he⟩ := ih { acc with mixins := acc.mixins ++ [l] }
      refine ⟨?_, ?_⟩
      · show (parseEOCallLoop rest _).mixins = _
        rw [hm]
        simp [mixinLabel]
      · show (parseEOCallLoop rest _).eoExpression = _
        rw [he]
        simp only [lastObjLabel, objLabel]
        cases lastObjLabel rest <;> rfl

/-! ## Helper lemma for classification totality -/

theorem isEOPropertySimple_of_fallback (p : EORawProp)
    (h₁ : ¬ isEOPropertyWithCallExpression p = true)
    (h₂ : ¬ isEOMethod p = true)
    (h₃ : ¬ isEOPropertyWithFunctionExpression p = true) :
    isEOPropertySimple p = true := by
  have hm : p.isMethod = false := by simpa [isEOMethod] using h₂
  simp only [isEOPropertyWithCallExpression, isEOPropertyWithFunctionExpression,
    hm, Bool.not_false, Bool.true_and, Bool.not_eq_true] at h₁ h₃
  simp [isEOPropertySimple, hm, h₁, h₃]

/-! ## Claim theorems -/

/--
C1: For every legacy property declaration given to the classifier
(`makeEOProp`), classification is total and deterministic: the same
declaration always yields exactly one Property Variant (`makeEOProp` is a
function, so equal inputs give equal results), the final `else` branch's
assertion never fails, and unrecognized shapes resolve to the `Simple`
(or, through the call-expression disambiguator, `DecoratedCallExpression`)
fallback rather than failing or dropping the declaration.
-/
theorem makeEOProp_total_deterministic (p : EORawProp) :
    ∃! v : EOPropVariant, makeEOProp p = Except.ok v := by
  have hex : ∃ v : EOPropVariant, makeEOProp p = Except.ok v := by
    unfold makeEOProp
    split_ifs with h₁ h₂ h₃ h₄ h₅ h₆
    · exact ⟨_, rfl⟩
    · exact ⟨_, rfl⟩
    · exact ⟨_, rfl⟩
    · exact ⟨_, rfl⟩
    · exact ⟨_, rfl⟩
    · exact ⟨_, rfl⟩
    · exact absurd (isEOPropertySimple_of_fallback p h₁ h₂ h₃) h₆
  obtain ⟨v, hv⟩ := hex
  exact ⟨v, hv, fun y hy => Except.ok.inj (hy.symm.trans hv)⟩

/--
C2 (code divergence evaluated): for the declaration named `foo` built
with runtime metadata `{ type: "EmberObject", unobservedProperties:
{ foo: [] } }`, the model's `hasUnobservesDecorator` accessor is true and
the entry's empty argument list is stored in `decoratorArgs.unobserves`,
but the member returned by `build()` carries zero decorators: the
synthesized `{ name: 'unobserves' }` info has no `args` key, so
`buildDecorators` drops it with an `Ignored decorator unobserves` log
entry — contradicting the claim that the built member carries exactly one
`unobserves` decorator with an empty argument list.
-/
theorem unobserves_decorator_dropped_by_build :
    fooProp.runtimeState.hasUnobservesDecorator = true ∧
    fooProp.runtimeState.decoratorArgs.unobserves = some [] ∧
    (EOSimpleProp.build fooProp).decorators = [] ∧
    EOSimpleProp.ignoredDecoratorNames fooProp = ["unobserves"] := by
  refine ⟨by decide, by decide, by decide, by decide⟩

/--
C4: for every Simple property model, the class member produced by
`build()` has its value field nulled exactly when `hasDecorators` is true;
when `hasDecorators` is false the member's value equals the source
declaration's value.
-/
theorem simple_build_value_nulled_iff_decorators (p : EOSimpleProp) :
    ((EOSimpleProp.build p).value = none
        ↔ p.runtimeState.hasDecorators = true) ∧
    (p.runtimeState.hasDecorators = false
        → (EOSimpleProp.build p).value = some p.value) := by
  cases h : p.runtimeState.hasDecorators with
  | true => simp [EOSimpleProp.build, h]
  | false => simp [EOSimpleProp.build, h]

/-- Witness for C4: a concrete Simple model without decorators builds to
a member carrying the source declaration's value. -/
theorem simple_build_value_nulled_iff_decorators_witness :
    (EOSimpleProp.build plainProp).value = some plainProp.value :=
  (simple_build_value_nulled_iff_decorators plainProp).2 (by decide)

/--
C6: for the Simple model of a declaration named `config` whose value is
an object literal, built with the class-field flag disabled, `typeErrors`
is non-empty and contains the message referencing the missing
`--class-fields=true` option, and `build()` nevertheless returns a class
member (with the declaration's key): the error is advisory, not blocking.
-/
theorem simple_config_type_errors_advisory :
    EOSimpleProp.typeErrors configProp ≠ [] ∧
    "[config]: need option '--class-fields=true'"
        ∈ EOSimpleProp.typeErrors configProp ∧
    (EOSimpleProp.build configProp).key = "config" ∧
    (EOSimpleProp.build configProp).value = some configProp.value := by
  refine ⟨by decide, by decide, by decide, by decide⟩

/--
C7: for every property model constructed with a runtime metadata record
whose `type` field is absent — even when its other fields are present and
non-empty — all metadata-derived state stays falsy/empty: no decorators
are synthesized, `isComputed` and `isOverridden` stay undefined, and
`hasRuntimeData` is false.
-/
theorem no_type_means_no_runtime_state (name : String) (rd : RuntimeData)
    (h : rd.type = none) :
    (initRuntimeState name (some rd)).decorators = [] ∧
    (initRuntimeState name (some rd)).isComputed = none ∧
    (initRuntimeState name (some rd)).isOverridden = none ∧
    (initRuntimeState name (some rd)).hasRuntimeData = false := by
  simp [initRuntimeState, strTruthy, h, EOPropRuntimeState.hasRuntimeData]

/-- Witness for C7: concrete metadata with `type` absent but non-empty
`computedProperties` and `unobservedProperties` yields the empty state. -/
theorem no_type_means_no_runtime_state_witness :
    (initRuntimeState "foo" (some typelessRuntimeData)).decorators = [] ∧
    (initRuntimeState "foo" (some typelessRuntimeData)).isComputed = none ∧
    (initRuntimeState "foo" (some typelessRuntimeData)).isOverridden = none ∧
    (initRuntimeState "foo" (some typelessRuntimeData)).hasRuntimeData = false :=
  no_type_means_no_runtime_state "foo" typelessRuntimeData rfl

/--
C3: the decorator-import aggregation `getDecoratorsToImportSpecs` is a
pure fold using logical OR per field: it is associative over splitting the
model sequence, invariant under permuting the model sequence, re-running
it on its own output with the same model set yields the same result, and
its result is the pointwise OR of the existing spec set with the
contribution of the models alone — so a field that is true in the
existing specs is never turned back to false.
-/
theorem getDecoratorsToImportSpecs_pure_or_fold :
    (∀ (l₁ l₂ : List EOPropView) (e : DecoratorImportSpecs),
        getDecoratorsToImportSpecs (l₁ ++ l₂) e
          = getDecoratorsToImportSpecs l₂ (getDecoratorsToImportSpecs l₁ e)) ∧
    (∀ (l₁ l₂ : List EOPropView), l₁.Perm l₂ →
        ∀ e, getDecoratorsToImportSpecs l₁ e = getDecoratorsToImportSpecs l₂ e) ∧
    (∀ (l : List EOPropView) (e : DecoratorImportSpecs),
        getDecoratorsToImportSpecs l (getDecoratorsToImportSpecs l e)
          = getDecoratorsToImportSpecs l e) ∧
    (∀ (l : List EOPropView) (e : DecoratorImportSpecs),
        getDecoratorsToImportSpecs l e
          = orSpecs e (getDecoratorsToImportSpecs l allFalseSpecs)) := by
  refine ⟨?_, ?_, ?_, getDecoratorsToImportSpecs_decompose⟩
  · intro l₁ l₂ e
    exact List.foldl_append importSpecsStep e l₁ l₂
  · intro l₁ l₂ h e
    exact getDecoratorsToImportSpecs_perm h e
  · intro l e
    have hd := getDecoratorsToImportSpecs_decompose l
    calc
      getDecoratorsToImportSpecs l (getDecoratorsToImportSpecs l e)
          = orSpecs (getDecoratorsToImportSpecs l e)
              (getDecoratorsToImportSpecs l allFalseSpecs) := hd _
      _ = orSpecs (orSpecs e (getDecoratorsToImportSpecs l allFalseSpecs))
              (getDecoratorsToImportSpecs l allFalseSpecs) := by rw [← hd e]
      _ = orSpecs e (orSpecs (getDecoratorsToImportSpecs l allFalseSpecs)
              (getDecoratorsToImportSpecs l allFalseSpecs)) := orSpecs_assoc ..
      _ = orSpecs e (getDecoratorsToImportSpecs l allFalseSpecs) := by
            rw [orSpecs_self]
      _ = getDecoratorsToImportSpecs l e := (hd e).symm

/-- Witness for C3: the permutation part applied to swapping two concrete
models. -/
theorem getDecoratorsToImportSpecs_pure_or_fold_witness :
    getDecoratorsToImportSpecs [tagNameView, actionsObjectView] allFalseSpecs
      = getDecoratorsToImportSpecs [actionsObjectView, tagNameView] allFalseSpecs :=
  getDecoratorsToImportSpecs_pure_or_fold.2.1 [tagNameView, actionsObjectView]
    [actionsObjectView, tagNameView] (List.Perm.swap actionsObjectView tagNameView [])
    allFalseSpecs

/--
C5 counterexample: the claim fails on the code. The classifier accepts an
`actions` declaration whose object value is empty; its model is an
`EOActionsObjectProp` instance realizing zero action methods, yet the
aggregation over an all-false existing spec set (with no other action
source) still sets the `action` field to true, because the aggregator
tests `instanceof EOActionsObjectProp` rather than whether any method was
realized.
-/
theorem action_import_flag_without_realized_method :
    makeEOProp emptyActionsRawProp = Except.ok .actionsObjectVariant ∧
    actionsObjectMethods emptyActionsRawProp.entries = [] ∧
    (getDecoratorsToImportSpecs [actionsObjectView] allFalseSpecs).action = true := by
  refine ⟨rfl, by decide, by decide⟩

/--
C5 amended: in the decorator-import accounting produced by
`getDecoratorsToImportSpecs` over an all-false existing spec set (and no
other action source), the `action` field is set to true exactly when at
least one model is an ActionsObject-variant instance — regardless of
whether that model realizes any method carrying the action annotation.
-/
theorem action_import_flag_iff_actions_object_instance (l : List EOPropView) :
    (getDecoratorsToImportSpecs l allFalseSpecs).action
      = l.any (·.isActionsObject) := by
  rw [getDecoratorsToImportSpecs_action l allFalseSpecs]
  rfl

/--
C8: for the declaration whose key is `actions` and whose value is an
object map of exactly the two function-valued entries `save` and
`cancel`, classification yields the ActionsObject variant, expansion
produces exactly two method members, each annotated with the `action`
decorator, and the rollup flag causing an `action` import is true in the
aggregated import spec set.
-/
theorem actions_save_cancel_expansion :
    makeEOProp saveCancelRawProp = Except.ok .actionsObjectVariant ∧
    (actionsObjectMethods saveCancelRawProp.entries).length = 2 ∧
    ((actionsObjectMethods saveCancelRawProp.entries).all
        fun m => m.decorators == ["action"]) = true ∧
    (getDecoratorsToImportSpecs [actionsObjectView] allFalseSpecs).action = true := by
  refine ⟨rfl, by decide, by decide, by decide⟩

/--
C9: `parseEmberObjectCallExpression` partitions the call expression's
arguments so that every non-ObjectExpression argument appears in the
`mixins` list in its original order, while `eoExpression` keeps only the
last ObjectExpression argument (earlier object-expression arguments are
silently discarded; `none` when there is no object-expression argument).
-/
theorem parseEmberObjectCallExpression_partition (args : List EOCallArg) :
    (parseEmberObjectCallExpression args).mixins = args.filterMap mixinLabel ∧
    (parseEmberObjectCallExpression args).eoExpression = lastObjLabel args := by
  obtain ⟨hm, he⟩ := parseEOCallLoop_spec args {}
  refine ⟨by simpa using hm, ?_⟩
  rw [parseEmberObjectCallExpression, he]
  cases lastObjLabel args <;> rfl

/--
C10: for every input file whose path extension, compared
case-insensitively, is not `.js` or `.ts`, the transformer returns no
output (`undefined`) without parsing or modifying the source — the result
is `none` for every source text and every parse/transform pipeline, so the
file is left unchanged.
-/
theorem transformer_skips_non_js_ts (pipeline : String → Option String)
    (source filePath : String)
    (h : ([".js", ".ts"].contains (toLowerCase (extname filePath))) = false) :
    transformer pipeline source filePath = none := by
  simp only [transformer, h]
  rfl

/-- Witness for C10: a file with the upper-cased non-js extension `.PnG`
is returned unchanged even under a pipeline that would rewrite it. -/
theorem transformer_skips_non_js_ts_witness :
    transformer (fun s => some (s ++ "!")) "body" "app/styles/photo.PnG" = none :=
  transformer_skips_non_js_ts (fun s => some (s ++ "!")) "body"
    "app/styles/photo.PnG" (by decide)
